import Mathlib

/-!
Shallow embedding of the crispchat real-time relay (server/sockets.ts, the
variant with the delivered-status guard and reconnection reconciliation,
together with the Mongoose message model in server/models).

The socket server is modelled as a state machine.  The state holds the
in-memory presence map `activeUsers : userId -> Set of socketIds`, the
per-user `last_seen` field of the User directory, and the durable message
store (a list of message documents in insertion order, as Mongo returns
them for the filters used here).  Each socket event handler becomes a pure
function from a state and the handler's inputs to the successor state plus
the ordered list of outbound emits it performs.  `Date.now()` is passed in
as an explicit `Nat` timestamp, and fallibility of the Mongo calls guarded
by a try/catch is an explicit `Bool` flag (`true` = the store operation
succeeded, `false` = it threw and the catch block ran).
-/

namespace CrispChat

abbrev UserId := String
abbrev SockId := String
abbrev MsgId := String

/-- The `status` enum of the message schema: `['sent', 'delivered', 'seen']`. -/
inductive Status where
  | sent
  | delivered
  | seen
deriving DecidableEq, Repr

/-- Position of a status in the `sent → delivered → seen` lifecycle. -/
def Status.rank : Status → Nat
  | .sent => 0
  | .delivered => 1
  | .seen => 2

/-- One entry of a message's `reactions` array: `{ emoji, user_id }`. -/
structure Reaction where
  emoji : String
  user_id : UserId
deriving DecidableEq, Repr

/-- A message document (messageSchema of models/Message). -/
structure Message where
  id : MsgId
  sender_id : UserId
  receiver_id : UserId
  message : String
  media_url : Option String
  media_type : Option String
  media_name : Option String
  status : Status
  timestamp : Nat
  seen_at : Option Nat
  reply_to : Option MsgId
  reactions : List Reaction
deriving DecidableEq, Repr

/-- Where an outbound emit is addressed: `io.to(room).emit`, `socket.emit`
(the one socket that raised the event), or `io.emit` (every socket). -/
inductive Target where
  | room (u : UserId)
  | socket (s : SockId)
  | global
deriving DecidableEq, Repr

/-- Outbound event name plus payload. -/
inductive Payload where
  | userOnline (u : UserId) (lastSeen : Nat)
  | userOffline (u : UserId) (lastSeen : Nat)
  | receiveMessage (m : Message)
  | messageSent (m : Message)
  | messageStatus (mid : MsgId) (st : Status)
  | messageReaction (mid : MsgId) (rs : List Reaction)
  | typing (senderId : UserId)
  | stopTyping (senderId : UserId)
deriving DecidableEq, Repr

/-- One outbound emit performed by a handler. -/
structure Emit where
  target : Target
  payload : Payload
deriving DecidableEq, Repr

/-- Server state: presence map (`[]` plays the role of "no entry", the code
deletes an entry exactly when its set empties), last_seen directory, and
the message store. -/
structure ServerState where
  conns : UserId → List SockId
  lastSeen : UserId → Nat
  store : List Message

/-- The empty relay: no live connection, empty store. -/
def initialState : ServerState :=
  { conns := fun _ => [], lastSeen := fun _ => 0, store := [] }

/-- Online test `activeUsers.has(u) && activeUsers.get(u)!.size > 0`. -/
def isOnline (s : ServerState) (u : UserId) : Bool :=
  !(s.conns u).isEmpty

/-- Lookup `Message.findById(mid)`: first (only, ids are unique) document
whose id matches. -/
def getMsg (s : ServerState) (mid : MsgId) : Option Message :=
  s.store.find? (fun m => decide (m.id = mid))

/-- Registration step of the connection handler:
`if (!activeUsers.has(userId)) activeUsers.set(userId, new Set());
activeUsers.get(userId)!.add(socket.id)`. -/
def register (s : ServerState) (u : UserId) (sid : SockId) : ServerState :=
  { s with conns := fun v =>
      if v = u then (if sid ∈ s.conns u then s.conns u else sid :: s.conns u)
      else s.conns v }

/-- Distinct elements of a list in order of first occurrence, matching the
iteration order of a JS `Set` built by insertion
(`new Set(undeliveredMessages.map(m => m.sender_id.toString()))`). -/
def firstOccs {α : Type} [DecidableEq α] : List α → List α
  | [] => []
  | a :: l => a :: firstOccs (l.filter (fun x => decide (x ≠ a)))
  termination_by l => l.length
  decreasing_by
    simp only [List.length_cons]
    exact Nat.lt_succ_of_le (List.length_filter_le _ _)

/-- The reconciliation block of the connection handler: find the messages
`{ receiver_id: u, status: 'sent' }`, bulk-update them to `delivered`, and
emit one `message_status` per message to its sender's room, grouped by
sender (iteration over the `Set` of senders preserves first-occurrence
order, matching JS `Set` insertion order). -/
def reconcile (s : ServerState) (u : UserId) : ServerState × List Emit :=
  let und := s.store.filter (fun m => decide (m.receiver_id = u ∧ m.status = Status.sent))
  if und.isEmpty then (s, [])
  else
    let store' := s.store.map (fun m =>
      if m.receiver_id = u ∧ m.status = Status.sent then { m with status := Status.delivered } else m)
    let senders := firstOccs (und.map (·.sender_id))
    let emits := senders.flatMap (fun sd =>
      (und.filter (fun m => decide (m.sender_id = sd))).map (fun m =>
        ⟨Target.room sd, Payload.messageStatus m.id Status.delivered⟩))
    ({ s with store := store' }, emits)

/-- The `io.on('connection')` handler up to the `socket.join(userId)` call:
register the socket, persist `last_seen`, broadcast `user_online`
globally, then run reconciliation (`ok = false` means the try/catch around
reconciliation caught a store error before any of its effects). -/
def connect (s : ServerState) (u : UserId) (sid : SockId) (t : Nat) (ok : Bool) :
    ServerState × List Emit :=
  let s1 := register s u sid
  let s2 := { s1 with lastSeen := fun v => if v = u then t else s1.lastSeen v }
  let onlineE : Emit := ⟨Target.global, Payload.userOnline u t⟩
  if ok then
    let r := reconcile s2 u
    (r.1, onlineE :: r.2)
  else (s2, [onlineE])

/-- The `disconnect` handler: delete the socket from the user's set; if the
set became empty, drop the entry, persist `last_seen` and broadcast
`user_offline` globally. -/
def disconnect (s : ServerState) (u : UserId) (sid : SockId) (t : Nat) :
    ServerState × List Emit :=
  let cur := s.conns u
  if cur.isEmpty then (s, [])
  else
    let rest := cur.filter (fun x => decide (x ≠ sid))
    let s1 := { s with conns := fun v => if v = u then rest else s.conns v }
    if rest.isEmpty then
      ({ s1 with lastSeen := fun v => if v = u then t else s.lastSeen v },
       [⟨Target.global, Payload.userOffline u t⟩])
    else (s1, [])

/-- Payload of a `send_message` client event. -/
structure SendData where
  receiverId : UserId
  message : String
  mediaUrl : Option String
  mediaType : Option String
  mediaName : Option String
  replyTo : Option MsgId
deriving DecidableEq, Repr

/-- First half of the `send_message` handler: build the document with
status `sent`, `await newMessage.save()` (`saveOk = false`: the save threw,
the catch only logs, nothing was emitted), then fan out `receive_message`
to the receiver's room and `message_sent` to the submitting socket only
(`socket.emit`).  `newId` is the ObjectId Mongo assigns on save. -/
def sendPersist (s : ServerState) (sender : UserId) (sid : SockId) (d : SendData)
    (newId : MsgId) (t : Nat) (saveOk : Bool) : ServerState × List Emit :=
  if saveOk then
    let m : Message :=
      { id := newId, sender_id := sender, receiver_id := d.receiverId,
        message := d.message, media_url := d.mediaUrl, media_type := d.mediaType,
        media_name := d.mediaName, status := Status.sent, timestamp := t,
        seen_at := none, reply_to := d.replyTo, reactions := [] }
    ({ s with store := s.store ++ [m] },
     [⟨Target.room d.receiverId, Payload.receiveMessage m⟩,
      ⟨Target.socket sid, Payload.messageSent m⟩])
  else (s, [])

/-- Second half of the `send_message` handler: if the receiver is online,
re-read the message and update it to `delivered` only if it is still
`sent`, then emit `message_status` to the sender's room. -/
def sendDeliveredCheck (s : ServerState) (sender : UserId) (receiverId : UserId)
    (mid : MsgId) : ServerState × List Emit :=
  if isOnline s receiverId then
    match getMsg s mid with
    | some m =>
      if m.status = Status.sent then
        ({ s with store := s.store.map (fun x =>
            if x.id = mid then { x with status := Status.delivered } else x) },
         [⟨Target.room sender, Payload.messageStatus mid Status.delivered⟩])
      else (s, [])
    | none => (s, [])
  else (s, [])

/-- The whole `send_message` handler run without interleaving: persist and
fan out, then (inside the same try block, so only when the save succeeded)
the delivered check. -/
def send_message (s : ServerState) (sender : UserId) (sid : SockId) (d : SendData)
    (newId : MsgId) (t : Nat) (saveOk : Bool) : ServerState × List Emit :=
  let r1 := sendPersist s sender sid d newId t saveOk
  if saveOk then
    let r2 := sendDeliveredCheck r1.1 sender d.receiverId newId
    (r2.1, r1.2 ++ r2.2)
  else r1

/-- Payload of a `message_seen` client event — note the sender id is
client-supplied. -/
structure SeenData where
  messageId : MsgId
  senderId : UserId
deriving DecidableEq, Repr

/-- The `message_seen` handler: unconditionally
`findByIdAndUpdate(messageId, { status: 'seen', seen_at: new Date() })`
(a no-op on the store when no document has that id, but not an error),
then emit `message_status` to the room named by the payload's senderId.
`ok = false` models the update throwing, in which case the catch block
only logs. -/
def message_seen (s : ServerState) (d : SeenData) (t : Nat) (ok : Bool) :
    ServerState × List Emit :=
  if ok then
    ({ s with store := s.store.map (fun m =>
        if m.id = d.messageId then { m with status := Status.seen, seen_at := some t } else m) },
     [⟨Target.room d.senderId, Payload.messageStatus d.messageId Status.seen⟩])
  else (s, [])

/-- Payload of a `react_message` client event. -/
structure ReactData where
  messageId : MsgId
  emoji : String
deriving DecidableEq, Repr

/-- The toggle at the heart of the `react_message` handler: if the caller
already has this emoji on the message, `pull` that subdocument (remove the
first — only — match), else `push` the pair onto the end of the array. -/
def toggleReaction (u : UserId) (emoji : String) (rs : List Reaction) : List Reaction :=
  if rs.any (fun r => decide (r.user_id = u ∧ r.emoji = emoji)) then
    rs.eraseP (fun r => decide (r.user_id = u ∧ r.emoji = emoji))
  else rs ++ [⟨emoji, u⟩]

/-- The `react_message` handler: look the message up (`if (!message)
return;`), toggle the caller's reaction, save, and broadcast the new
reaction list to both parties' rooms.  `ok = false` models the store
throwing (catch logs only). -/
def react_message (s : ServerState) (u : UserId) (d : ReactData) (ok : Bool) :
    ServerState × List Emit :=
  if ok then
    match getMsg s d.messageId with
    | none => (s, [])
    | some m =>
      let newReactions := toggleReaction u d.emoji m.reactions
      ({ s with store := s.store.map (fun x =>
          if x.id = d.messageId then { x with reactions := newReactions } else x) },
       [⟨Target.room m.sender_id, Payload.messageReaction d.messageId newReactions⟩,
        ⟨Target.room m.receiver_id, Payload.messageReaction d.messageId newReactions⟩])
  else (s, [])

/-- The `typing` handler: stateless relay to the receiver's room. -/
def typingRelay (u : UserId) (receiverId : UserId) : List Emit :=
  [⟨Target.room receiverId, Payload.typing u⟩]

/-- The `stop_typing` handler: stateless relay to the receiver's room. -/
def stopTypingRelay (u : UserId) (receiverId : UserId) : List Emit :=
  [⟨Target.room receiverId, Payload.stopTyping u⟩]

/-- One inbound event, with the `await` boundary inside `send_message`
made explicit so that other events may interleave between the persist/fan-
out and the delivered check. -/
inductive Ev where
  | connect (u : UserId) (sid : SockId) (t : Nat) (ok : Bool)
  | disconnect (u : UserId) (sid : SockId) (t : Nat)
  | sendPersist (sender : UserId) (sid : SockId) (d : SendData) (newId : MsgId)
      (t : Nat) (saveOk : Bool)
  | sendDeliveredCheck (sender : UserId) (receiverId : UserId) (mid : MsgId)
  | messageSeen (u : UserId) (d : SeenData) (t : Nat) (ok : Bool)
  | reactMessage (u : UserId) (d : ReactData) (ok : Bool)
  | typing (u : UserId) (receiverId : UserId)
  | stopTyping (u : UserId) (receiverId : UserId)

/-- Dispatch of one inbound event. -/
def step (s : ServerState) : Ev → ServerState × List Emit
  | .connect u sid t ok => connect s u sid t ok
  | .disconnect u sid t => disconnect s u sid t
  | .sendPersist sender sid d newId t saveOk => sendPersist s sender sid d newId t saveOk
  | .sendDeliveredCheck sender receiverId mid => sendDeliveredCheck s sender receiverId mid
  | .messageSeen _ d t ok => message_seen s d t ok
  | .reactMessage u d ok => react_message s u d ok
  | .typing u receiverId => (s, typingRelay u receiverId)
  | .stopTyping u receiverId => (s, stopTypingRelay u receiverId)

/-- Run a trace of events, collecting every emit in order. -/
def run (s : ServerState) : List Ev → ServerState × List Emit
  | [] => (s, [])
  | e :: es =>
    let r := step s e
    let r2 := run r.1 es
    (r2.1, r.2 ++ r2.2)

/-- Does socket `sid` (which has joined exactly its owner's user room)
receive this emit?  `io.to(room)` reaches the sockets in the room,
`socket.emit` only that socket, `io.emit` everyone. -/
def receivesEmit (st : ServerState) (e : Emit) (sid : SockId) : Bool :=
  match e.target with
  | Target.socket s' => decide (s' = sid)
  | Target.room v => decide (sid ∈ st.conns v)
  | Target.global => true

end CrispChat

namespace CrispChat

theorem mem_firstOccs {α : Type} [DecidableEq α] (x : α) (l : List α) :
    x ∈ firstOccs l ↔ x ∈ l := by
  induction l using firstOccs.induct with
  | case1 => simp [firstOccs]
  | case2 a l ih =>
    simp only [firstOccs, List.mem_cons, ih, List.mem_filter, decide_eq_true_eq]
    constructor
    · rintro (rfl | ⟨h, _⟩)
      · exact Or.inl rfl
      · exact Or.inr h
    · rintro (rfl | h)
      · exact Or.inl rfl
      · by_cases hx : x = a
        · exact Or.inl hx
        · exact Or.inr ⟨h, hx⟩

theorem nodup_firstOccs {α : Type} [DecidableEq α] (l : List α) :
    (firstOccs l).Nodup := by
  induction l using firstOccs.induct with
  | case1 => simp [firstOccs]
  | case2 a l ih =>
    simp only [firstOccs, List.nodup_cons]
    refine ⟨fun hmem => ?_, ih⟩
    rw [mem_firstOccs] at hmem
    simp [List.mem_filter] at hmem

end CrispChat

namespace CrispChat

theorem Status.rank_le_two (st : Status) : st.rank ≤ 2 := by
  cases st <;> simp [Status.rank]

theorem Status.eq_seen_of_two_le_rank {st : Status} (h : 2 ≤ st.rank) :
    st = Status.seen := by
  cases st <;> simp [Status.rank] at h ⊢

theorem find?_map_id {f : Message → Message} (hid : ∀ x, (f x).id = x.id)
    (l : List Message) (mid : MsgId) :
    (l.map f).find? (fun m => decide (m.id = mid)) =
      (l.find? (fun m => decide (m.id = mid))).map f := by
  induction l with
  | nil => rfl
  | cons x xs ih =>
    simp only [List.map_cons, List.find?_cons, hid x]
    by_cases h : x.id = mid
    · simp [h]
    · simp [h, ih]

theorem find?_id_of_mem {l : List Message} (hnd : (l.map Message.id).Nodup)
    {m : Message} (hm : m ∈ l) :
    l.find? (fun x => decide (x.id = m.id)) = some m := by
  induction l with
  | nil => cases hm
  | cons x xs ih =>
    simp only [List.map_cons, List.nodup_cons] at hnd
    rcases List.mem_cons.mp hm with rfl | hmem
    · simp [List.find?_cons]
    · have hne : x.id ≠ m.id := fun h => hnd.1 (h ▸ List.mem_map_of_mem Message.id hmem)
      rw [List.find?_cons_of_neg _ (by simpa using hne)]
      exact ih hnd.2 hmem

theorem countP_eq_one_of_nodup_mem {α : Type} [DecidableEq α] {l : List α} {a : α}
    (hnd : l.Nodup) (ha : a ∈ l) :
    l.countP (fun x => decide (x = a)) = 1 := by
  induction l with
  | nil => cases ha
  | cons x xs ih =>
    rw [List.nodup_cons] at hnd
    rcases List.mem_cons.mp ha with heq | hmem
    · subst heq
      have hz : xs.countP (fun y => decide (y = a)) = 0 :=
        List.countP_eq_zero.mpr (fun b hb => by
          simp only [decide_eq_true_eq]
          rintro rfl
          exact hnd.1 hb)
      simp [List.countP_cons, hz]
    · have hne : x ≠ a := fun h => hnd.1 (h ▸ hmem)
      simp [List.countP_cons, hne, ih hnd.2 hmem]

theorem sum_map_indicator {α : Type} [DecidableEq α] (l : List α) (b : α) :
    (l.map (fun x => if x = b then 1 else 0)).sum = l.countP (fun x => decide (x = b)) := by
  induction l with
  | nil => rfl
  | cons x xs ih =>
    by_cases h : x = b <;> simp [List.countP_cons, h, ih, Nat.add_comm]

theorem eraseP_append_of_forall_not {α : Type} {p : α → Bool} {l₁ : List α}
    (h : ∀ a ∈ l₁, ¬ p a) (l₂ : List α) :
    (l₁ ++ l₂).eraseP p = l₁ ++ l₂.eraseP p := by
  induction l₁ with
  | nil => rfl
  | cons x xs ih =>
    have hx : p x = false := by
      have hh := h x (List.mem_cons_self x xs)
      simpa using hh
    simp only [List.cons_append, List.eraseP_cons, hx, cond_false]
    rw [ih (fun a ha => h a (List.mem_cons_of_mem x ha))]

end CrispChat

namespace CrispChat

theorem toggle_matches_self (u : UserId) (e : String) :
    (fun r => decide (r.user_id = u ∧ r.emoji = e)) (⟨e, u⟩ : Reaction) = true := by
  simp

theorem toggle_toggle_perm (u : UserId) (e : String) (rs : List Reaction)
    (hcnt : rs.countP (fun r => decide (r.user_id = u ∧ r.emoji = e)) ≤ 1) :
    (toggleReaction u e (toggleReaction u e rs)).Perm rs := by
  set p : Reaction → Bool := fun r => decide (r.user_id = u ∧ r.emoji = e) with hp
  by_cases hany : rs.any p
  · -- the pair is present: first toggle erases it, second appends it back
    obtain ⟨x, hx, hpx⟩ := List.any_eq_true.mp hany
    obtain ⟨a, l₁, l₂, hl₁, hpa, hrs, herase⟩ := List.exists_of_eraseP hx hpx
    have hrs1 : toggleReaction u e rs = l₁ ++ l₂ := by
      rw [toggleReaction, if_pos hany, herase]
    have hl₂ : ∀ b ∈ l₂, ¬ p b := by
      have hc : rs.countP p = l₁.countP p + 1 + l₂.countP p := by
        rw [hrs]
        simp [List.countP_append, List.countP_cons, hpa]
        omega
      have hz : l₂.countP p = 0 := by omega
      exact fun b hb hpb => by
        have := List.countP_eq_zero.mp hz b hb
        exact this hpb
    have hnone : (l₁ ++ l₂).any p = false := by
      rw [List.any_eq_false]
      intro b hb
      rcases List.mem_append.mp hb with h1 | h2
      · exact hl₁ b h1
      · exact hl₂ b h2
    have ha : a = (⟨e, u⟩ : Reaction) := by
      have := of_decide_eq_true hpa
      cases a
      simp only at this
      simp [this.1, this.2]
    have hrs2 : toggleReaction u e (l₁ ++ l₂) = (l₁ ++ l₂) ++ [⟨e, u⟩] := by
      rw [toggleReaction, hnone]
      simp
    rw [hrs1, hrs2, hrs, ha, List.append_assoc]
    exact (List.perm_append_singleton _ _).append_left l₁
  · -- the pair is absent: first toggle appends it, second erases exactly it
    have hrs1 : toggleReaction u e rs = rs ++ [⟨e, u⟩] := by
      rw [toggleReaction, if_neg hany]
    have hall : ∀ b ∈ rs, ¬ p b := by
      rw [List.any_eq_true] at hany
      exact fun b hb hpb => hany ⟨b, hb, hpb⟩
    have hany2 : (rs ++ [(⟨e, u⟩ : Reaction)]).any p = true := by
      rw [List.any_eq_true]
      exact ⟨⟨e, u⟩, List.mem_append_right _ (List.mem_singleton_self _), toggle_matches_self u e⟩
    have : toggleReaction u e (rs ++ [⟨e, u⟩]) = rs := by
      rw [toggleReaction, hany2]
      simp only [if_true]
      rw [eraseP_append_of_forall_not hall]
      have hpr : p (⟨e, u⟩ : Reaction) = true := by simp [hp]
      simp [List.eraseP_cons, hpr]
    rw [hrs1, this]

end CrispChat

namespace CrispChat

theorem getMsg_store_map (s : ServerState) {f : Message → Message}
    (hid : ∀ x, (f x).id = x.id) (mid : MsgId) {m : Message}
    (hm : getMsg s mid = some m) :
    getMsg { s with store := s.store.map f } mid = some (f m) := by
  have hm' : List.find? (fun x => decide (x.id = mid)) s.store = some m := hm
  show (s.store.map f).find? (fun x => decide (x.id = mid)) = some (f m)
  rw [find?_map_id hid, hm']
  rfl

theorem getMsg_id {s : ServerState} {mid : MsgId} {m : Message}
    (hm : getMsg s mid = some m) : m.id = mid := by
  have := List.find?_some hm
  simpa using this

theorem getMsg_reconcile_mono (s : ServerState) (u : UserId) (mid : MsgId) (m : Message)
    (hm : getMsg s mid = some m) :
    ∃ m', getMsg (reconcile s u).1 mid = some m' ∧ m.status.rank ≤ m'.status.rank := by
  have hm' : List.find? (fun x => decide (x.id = mid)) s.store = some m := hm
  rw [reconcile]
  split
  · exact ⟨m, hm, Nat.le_refl _⟩
  · dsimp only
    refine ⟨_, getMsg_store_map s (fun x => by split <;> rfl) mid hm, ?_⟩
    by_cases hx : m.receiver_id = u ∧ m.status = Status.sent
    · rw [if_pos hx, hx.2]
      exact Nat.zero_le _
    · rw [if_neg hx]


theorem message_seen_true_def (s : ServerState) (d : SeenData) (t : Nat) :
    message_seen s d t true =
      ({ s with store := s.store.map (fun m =>
          if m.id = d.messageId then { m with status := Status.seen, seen_at := some t } else m) },
       [⟨Target.room d.senderId, Payload.messageStatus d.messageId Status.seen⟩]) := rfl

theorem react_message_none {s : ServerState} {u : UserId} {dd : ReactData}
    (hg : getMsg s dd.messageId = none) :
    react_message s u dd true = (s, []) := by
  rw [react_message, if_pos rfl, hg]

theorem react_message_some {s : ServerState} {u : UserId} {dd : ReactData} {m0 : Message}
    (hg : getMsg s dd.messageId = some m0) :
    react_message s u dd true =
      ({ s with store := s.store.map (fun x =>
          if x.id = dd.messageId then { x with reactions := toggleReaction u dd.emoji m0.reactions } else x) },
       [⟨Target.room m0.sender_id, Payload.messageReaction dd.messageId (toggleReaction u dd.emoji m0.reactions)⟩,
        ⟨Target.room m0.receiver_id, Payload.messageReaction dd.messageId (toggleReaction u dd.emoji m0.reactions)⟩]) := by
  rw [react_message, if_pos rfl, hg]

theorem getMsg_step_mono (s : ServerState) (e : Ev) (mid : MsgId) (m : Message)
    (hm : getMsg s mid = some m) :
    ∃ m', getMsg (step s e).1 mid = some m' ∧ m.status.rank ≤ m'.status.rank := by
  have hm' : List.find? (fun x => decide (x.id = mid)) s.store = some m := hm
  cases e with
  | connect u sid t ok =>
    show ∃ m', getMsg (connect s u sid t ok).1 mid = some m' ∧ _
    cases ok with
    | false => exact ⟨m, hm, Nat.le_refl _⟩
    | true => exact getMsg_reconcile_mono _ u mid m hm
  | disconnect u sid t =>
    show ∃ m', getMsg (disconnect s u sid t).1 mid = some m' ∧ _
    rw [disconnect]
    split
    · exact ⟨m, hm, Nat.le_refl _⟩
    · dsimp only
      split
      · exact ⟨m, hm, Nat.le_refl _⟩
      · exact ⟨m, hm, Nat.le_refl _⟩
  | sendPersist sender sid d newId t saveOk =>
    show ∃ m', getMsg (sendPersist s sender sid d newId t saveOk).1 mid = some m' ∧ _
    cases saveOk with
    | false => exact ⟨m, hm, Nat.le_refl _⟩
    | true =>
      refine ⟨m, ?_, Nat.le_refl _⟩
      show (s.store ++ [_]).find? (fun x => decide (x.id = mid)) = some m
      rw [List.find?_append, hm']
      rfl
  | sendDeliveredCheck sender receiverId mid0 =>
    show ∃ m', getMsg (sendDeliveredCheck s sender receiverId mid0).1 mid = some m' ∧ _
    rw [sendDeliveredCheck]
    split
    · split
      · next m0 hg =>
        split
        · next hst =>
          dsimp only
          refine ⟨_, getMsg_store_map s (fun x => by split <;> rfl) mid hm, ?_⟩
          by_cases hmid : m.id = mid0
          · have hmm : mid = mid0 := (getMsg_id hm) ▸ hmid
            subst hmm
            have hmeq : m = m0 := by
              rw [hm] at hg
              exact (Option.some.injEq _ _).mp hg
            have hms2 : m.status = Status.sent := by rw [hmeq]; exact hst
            rw [if_pos hmid, hms2]
            exact Nat.zero_le _
          · rw [if_neg hmid]
        · exact ⟨m, hm, Nat.le_refl _⟩
      · exact ⟨m, hm, Nat.le_refl _⟩
    · exact ⟨m, hm, Nat.le_refl _⟩
  | messageSeen u dd t ok =>
    show ∃ m', getMsg (message_seen s dd t ok).1 mid = some m' ∧ _
    cases ok with
    | false => exact ⟨m, hm, Nat.le_refl _⟩
    | true =>
      rw [message_seen_true_def]
      refine ⟨_, getMsg_store_map s (fun x => by split <;> rfl) mid hm, ?_⟩
      show m.status.rank ≤
        (if m.id = dd.messageId then { m with status := Status.seen, seen_at := some t } else m).status.rank
      by_cases hmid : m.id = dd.messageId
      · rw [if_pos hmid]
        exact Status.rank_le_two m.status
      · rw [if_neg hmid]
  | reactMessage u dd ok =>
    show ∃ m', getMsg (react_message s u dd ok).1 mid = some m' ∧ _
    cases ok with
    | false => exact ⟨m, hm, Nat.le_refl _⟩
    | true =>
      cases hg : getMsg s dd.messageId with
      | none =>
        rw [react_message_none hg]
        exact ⟨m, hm, Nat.le_refl _⟩
      | some m0 =>
        rw [react_message_some hg]
        refine ⟨_, getMsg_store_map s (fun x => by split <;> rfl) mid hm, ?_⟩
        show m.status.rank ≤
          (if m.id = dd.messageId
            then { m with reactions := toggleReaction u dd.emoji m0.reactions } else m).status.rank
        by_cases hmid : m.id = dd.messageId
        · rw [if_pos hmid]
        · rw [if_neg hmid]
  | typing u receiverId => exact ⟨m, hm, Nat.le_refl _⟩
  | stopTyping u receiverId => exact ⟨m, hm, Nat.le_refl _⟩

theorem run_status_mono (tr : List Ev) : ∀ (s : ServerState) (mid : MsgId) (m : Message),
    getMsg s mid = some m →
    ∃ m', getMsg (run s tr).1 mid = some m' ∧ m.status.rank ≤ m'.status.rank := by
  induction tr with
  | nil => exact fun s mid m hm => ⟨m, hm, Nat.le_refl _⟩
  | cons e es ih =>
    intro s mid m hm
    obtain ⟨m1, hm1, h1⟩ := getMsg_step_mono s e mid m hm
    obtain ⟨m2, hm2, h2⟩ := ih (step s e).1 mid m1 hm1
    exact ⟨m2, hm2, Nat.le_trans h1 h2⟩

/-- Does this emit announce `user_online` for user `u`? -/
def onlineFor (u : UserId) (e : Emit) : Bool :=
  match e.payload with
  | Payload.userOnline v _ => decide (v = u)
  | _ => false

/-- Does this emit announce `user_offline` for user `u`? -/
def offlineFor (u : UserId) (e : Emit) : Bool :=
  match e.payload with
  | Payload.userOffline v _ => decide (v = u)
  | _ => false

theorem reconcile_emits_shape (s : ServerState) (u : UserId) :
    ∀ e ∈ (reconcile s u).2,
      ∃ sd mid, e = ⟨Target.room sd, Payload.messageStatus mid Status.delivered⟩ := by
  intro e he
  rw [reconcile] at he
  split at he
  · cases he
  · dsimp only at he
    obtain ⟨sd, _, he2⟩ := List.mem_flatMap.mp he
    obtain ⟨m0, _, rfl⟩ := List.mem_map.mp he2
    exact ⟨sd, m0.id, rfl⟩

theorem reconcile_no_presence (s : ServerState) (u v : UserId) :
    (reconcile s v).2.countP (onlineFor u) = 0 ∧
    (reconcile s v).2.countP (offlineFor u) = 0 := by
  constructor <;>
  · apply List.countP_eq_zero.mpr
    intro e he
    obtain ⟨sd, mid, rfl⟩ := reconcile_emits_shape s v e he
    simp [onlineFor, offlineFor]

theorem reconcile_conns (s : ServerState) (u : UserId) :
    (reconcile s u).1.conns = s.conns := by
  rw [reconcile]
  split <;> rfl

theorem connect_conns (s : ServerState) (u : UserId) (sid : SockId) (t : Nat) (ok : Bool) :
    (connect s u sid t ok).1.conns = (register s u sid).conns := by
  cases ok with
  | false => rfl
  | true => exact reconcile_conns _ u

theorem sendPersist_conns (s : ServerState) (sender : UserId) (sid : SockId) (d : SendData)
    (newId : MsgId) (t : Nat) (saveOk : Bool) :
    (sendPersist s sender sid d newId t saveOk).1.conns = s.conns := by
  cases saveOk <;> rfl

theorem sendDeliveredCheck_conns (s : ServerState) (sender receiverId : UserId) (mid : MsgId) :
    (sendDeliveredCheck s sender receiverId mid).1.conns = s.conns := by
  rw [sendDeliveredCheck]
  split
  · split
    · split <;> rfl
    · rfl
  · rfl

theorem message_seen_conns (s : ServerState) (d : SeenData) (t : Nat) (ok : Bool) :
    (message_seen s d t ok).1.conns = s.conns := by
  cases ok <;> rfl

theorem react_message_conns (s : ServerState) (u : UserId) (d : ReactData) (ok : Bool) :
    (react_message s u d ok).1.conns = s.conns := by
  cases ok with
  | false => rfl
  | true =>
    cases hg : getMsg s d.messageId with
    | none => rw [react_message_none hg]
    | some m0 => rw [react_message_some hg]

theorem register_online (s : ServerState) (u : UserId) (sid : SockId) :
    isOnline { s with conns := (register s u sid).conns } u = true := by
  show (!((register s u sid).conns u).isEmpty) = true
  rw [register]
  dsimp only
  rw [if_pos rfl]
  by_cases hmem : sid ∈ s.conns u
  · rw [if_pos hmem]
    cases hcur : s.conns u with
    | nil => rw [hcur] at hmem; cases hmem
    | cons a l => simp
  · rw [if_neg hmem]
    simp

theorem offline_side_of_preserved {s : ServerState} {r : ServerState × List Emit} {u : UserId}
    (hconns : r.1.conns = s.conns) (hcnt : r.2.countP (offlineFor u) = 0) :
    r.2.countP (offlineFor u) = if isOnline s u && !(isOnline r.1 u) then 1 else 0 := by
  have hON : isOnline r.1 u = isOnline s u := by
    show (!(r.1.conns u).isEmpty) = _
    rw [hconns]
    rfl
  rw [hcnt, hON, Bool.and_not_self]
  rfl

theorem presence_step_counts (s : ServerState) (e : Ev) (u : UserId) :
    ((step s e).2.countP (onlineFor u) =
      match e with
      | Ev.connect v _ _ _ => if v = u then 1 else 0
      | _ => 0)
    ∧ ((step s e).2.countP (offlineFor u) =
      if isOnline s u && !(isOnline (step s e).1 u) then 1 else 0) := by
  cases e with
  | connect v sid t ok =>
    constructor
    · show (connect s v sid t ok).2.countP (onlineFor u) = if v = u then 1 else 0
      cases ok with
      | false =>
        show List.countP _ [(⟨Target.global, Payload.userOnline v t⟩ : Emit)] = _
        simp [List.countP_cons, onlineFor]
      | true =>
        show List.countP _ (⟨Target.global, Payload.userOnline v t⟩ :: (reconcile _ v).2) = _
        rw [List.countP_cons, (reconcile_no_presence _ u v).1]
        simp [onlineFor]
    · have hoff : (connect s v sid t ok).2.countP (offlineFor u) = 0 := by
        cases ok with
        | false =>
          show List.countP _ [(⟨Target.global, Payload.userOnline v t⟩ : Emit)] = 0
          simp [List.countP_cons, offlineFor]
        | true =>
          show List.countP _ (⟨Target.global, Payload.userOnline v t⟩ :: (reconcile _ v).2) = 0
          rw [List.countP_cons, (reconcile_no_presence _ u v).2]
          simp [offlineFor]
      show (connect s v sid t ok).2.countP (offlineFor u) =
        if isOnline s u && !(isOnline (connect s v sid t ok).1 u) then 1 else 0
      rw [hoff]
      by_cases huv : u = v
      · subst huv
        have hon : isOnline (connect s u sid t ok).1 u = true := by
          show (!(((connect s u sid t ok).1.conns) u).isEmpty) = true
          rw [connect_conns]
          exact register_online s u sid
        rw [hon]
        simp
      · have hsame : isOnline (connect s v sid t ok).1 u = isOnline s u := by
          show (!(((connect s v sid t ok).1.conns) u).isEmpty) = _
          rw [connect_conns, register]
          dsimp only
          rw [if_neg huv]
          rfl
        rw [hsame, Bool.and_not_self]
        rfl
  | disconnect v sid t =>
    show (disconnect s v sid t).2.countP (onlineFor u) = 0 ∧
      (disconnect s v sid t).2.countP (offlineFor u) =
        if isOnline s u && !(isOnline (disconnect s v sid t).1 u) then 1 else 0
    rw [disconnect]
    split
    · next hcur =>
      refine ⟨rfl, ?_⟩
      show (0 : Nat) = if isOnline s u && !(isOnline s u) then 1 else 0
      rw [Bool.and_not_self]
      rfl
    · next hcur =>
      dsimp only
      split
      · next hrest =>
        constructor
        · show List.countP _ [(⟨Target.global, Payload.userOffline v t⟩ : Emit)] = 0
          simp [List.countP_cons, onlineFor]
        · show List.countP _ [(⟨Target.global, Payload.userOffline v t⟩ : Emit)] =
            if isOnline s u && !(isOnline _ u) then 1 else 0
          by_cases huv : u = v
          · subst huv
            have h1 : isOnline s u = true := by
              show (!(s.conns u).isEmpty) = true
              simp only [Bool.not_eq_true] at hcur
              rw [hcur]
              rfl
            have h2 : (!(if u = u then (s.conns u).filter (fun x => decide (x ≠ sid)) else s.conns u).isEmpty) = false := by
              rw [if_pos rfl, hrest]
              rfl
            show List.countP _ [(⟨Target.global, Payload.userOffline u t⟩ : Emit)] =
              if isOnline s u && !(!(if u = u then (s.conns u).filter (fun x => decide (x ≠ sid)) else s.conns u).isEmpty) then 1 else 0
            rw [h1, h2]
            simp [List.countP_cons, offlineFor]
          · have h2 : isOnline ({ conns := fun w => if w = v then (s.conns v).filter (fun x => decide (x ≠ sid)) else s.conns w, lastSeen := fun w => if w = v then t else s.lastSeen w, store := s.store } : ServerState) u = isOnline s u := by
              show (!(if u = v then _ else s.conns u).isEmpty) = _
              rw [if_neg huv]
              rfl
            rw [h2, Bool.and_not_self]
            simp [List.countP_cons, offlineFor]
            intro h
            exact absurd h.symm huv
      · next hrest =>
        constructor
        · rfl
        · show (0 : Nat) = if isOnline s u && !(isOnline _ u) then 1 else 0
          by_cases huv : u = v
          · subst huv
            have h2 : (!(if u = u then (s.conns u).filter (fun x => decide (x ≠ sid)) else s.conns u).isEmpty) = true := by
              rw [if_pos rfl]
              simp only [Bool.not_eq_true] at hrest
              rw [hrest]
              rfl
            show (0 : Nat) = if isOnline s u && !(!(if u = u then (s.conns u).filter (fun x => decide (x ≠ sid)) else s.conns u).isEmpty) then 1 else 0
            rw [h2]
            simp
          · have h2 : isOnline ({ conns := fun w => if w = v then (s.conns v).filter (fun x => decide (x ≠ sid)) else s.conns w, lastSeen := s.lastSeen, store := s.store } : ServerState) u = isOnline s u := by
              show (!(if u = v then _ else s.conns u).isEmpty) = _
              rw [if_neg huv]
              rfl
            rw [h2, Bool.and_not_self]
            rfl
  | sendPersist sender sid d newId t saveOk =>
    refine ⟨?_, offline_side_of_preserved (sendPersist_conns s sender sid d newId t saveOk) ?_⟩
    · show (sendPersist s sender sid d newId t saveOk).2.countP (onlineFor u) = 0
      cases saveOk <;> rfl
    · cases saveOk <;> rfl
  | sendDeliveredCheck sender receiverId mid =>
    refine ⟨?_, offline_side_of_preserved (sendDeliveredCheck_conns s sender receiverId mid) ?_⟩
    · show (sendDeliveredCheck s sender receiverId mid).2.countP (onlineFor u) = 0
      rw [sendDeliveredCheck]
      split
      · split
        · split <;> rfl
        · rfl
      · rfl
    · show (sendDeliveredCheck s sender receiverId mid).2.countP (offlineFor u) = 0
      rw [sendDeliveredCheck]
      split
      · split
        · split <;> rfl
        · rfl
      · rfl
  | messageSeen u0 dd t ok =>
    refine ⟨?_, offline_side_of_preserved (message_seen_conns s dd t ok) ?_⟩
    · show (message_seen s dd t ok).2.countP (onlineFor u) = 0
      cases ok <;> rfl
    · cases ok <;> rfl
  | reactMessage u0 dd ok =>
    refine ⟨?_, offline_side_of_preserved (react_message_conns s u0 dd ok) ?_⟩
    · show (react_message s u0 dd ok).2.countP (onlineFor u) = 0
      cases ok with
      | false => rfl
      | true =>
        cases hg : getMsg s dd.messageId with
        | none =>
          rw [react_message_none hg]
          rfl
        | some m0 =>
          rw [react_message_some hg]
          rfl
    · cases ok with
      | false => rfl
      | true =>
        show (react_message s u0 dd true).2.countP (offlineFor u) = 0
        cases hg : getMsg s dd.messageId with
        | none =>
          rw [react_message_none hg]
          rfl
        | some m0 =>
          rw [react_message_some hg]
          rfl
  | typing u0 receiverId =>
    exact ⟨rfl, offline_side_of_preserved rfl rfl⟩
  | stopTyping u0 receiverId =>
    exact ⟨rfl, offline_side_of_preserved rfl rfl⟩

theorem reconcile_emit_count (s : ServerState) (u : UserId) (m : Message)
    (hnd : (s.store.map Message.id).Nodup)
    (hm : m ∈ s.store) (hrecv : m.receiver_id = u) (hsent : m.status = Status.sent) :
    (reconcile s u).2.countP
      (fun e => decide (e = ⟨Target.room m.sender_id, Payload.messageStatus m.id Status.delivered⟩)) = 1 := by
  have hmund : m ∈ s.store.filter (fun x => decide (x.receiver_id = u ∧ x.status = Status.sent)) :=
    List.mem_filter.mpr ⟨hm, by simp [hrecv, hsent]⟩
  set und := s.store.filter (fun x => decide (x.receiver_id = u ∧ x.status = Status.sent)) with hund
  have hndund : (und.map Message.id).Nodup :=
    List.Nodup.sublist ((List.filter_sublist _).map Message.id) hnd
  have hundnd : und.Nodup := List.Nodup.of_map _ hndund
  have hinj := List.inj_on_of_nodup_map hndund
  rw [reconcile]
  rw [if_neg (by
    simp only [List.isEmpty_eq_true]
    exact fun h => by rw [← hund] at h; rw [h] at hmund; cases hmund)]
  dsimp only
  rw [← hund, List.countP_flatMap]
  have hkey : ∀ sd : UserId,
      (List.countP (fun e => decide (e = ⟨Target.room m.sender_id, Payload.messageStatus m.id Status.delivered⟩)) ∘
        fun sd => (und.filter (fun x => decide (x.sender_id = sd))).map (fun x =>
          (⟨Target.room sd, Payload.messageStatus x.id Status.delivered⟩ : Emit))) sd
        = if sd = m.sender_id then 1 else 0 := by
    intro sd
    show List.countP _ ((und.filter (fun x => decide (x.sender_id = sd))).map _) = _
    rw [List.countP_map, List.countP_filter]
    by_cases hsd : sd = m.sender_id
    · subst hsd
      rw [if_pos rfl]
      rw [List.countP_congr (q := fun x => decide (x = m)) ?_]
      · exact countP_eq_one_of_nodup_mem hundnd hmund
      · intro x hx
        simp only [Function.comp_apply, Bool.and_eq_true, decide_eq_true_eq, Emit.mk.injEq,
          Target.room.injEq, Payload.messageStatus.injEq]
        constructor
        · rintro ⟨⟨hsd2, hid, _⟩, _⟩
          exact hinj hx hmund hid
        · rintro rfl
          simp
    · rw [if_neg hsd]
      rw [List.countP_congr (q := fun _ => false) ?_]
      · simp
      · intro x hx
        simp only [Function.comp_apply, Bool.and_eq_true, decide_eq_true_eq, Emit.mk.injEq,
          Target.room.injEq, Payload.messageStatus.injEq]
        constructor
        · rintro ⟨⟨hsd2, _⟩, _⟩
          exact absurd hsd2 hsd
        · intro h
          cases h
  rw [List.map_congr_left (fun sd _ => hkey sd), sum_map_indicator]
  apply countP_eq_one_of_nodup_mem (nodup_firstOccs _)
  rw [mem_firstOccs]
  exact List.mem_map.mpr ⟨m, hmund, rfl⟩

theorem getMsg_reconcile_sent (s : ServerState) (u : UserId) (m : Message)
    (hms : getMsg s m.id = some m)
    (hm : m ∈ s.store) (hrecv : m.receiver_id = u) (hsent : m.status = Status.sent) :
    getMsg (reconcile s u).1 m.id = some { m with status := Status.delivered } := by
  have hmund : m ∈ s.store.filter (fun x => decide (x.receiver_id = u ∧ x.status = Status.sent)) :=
    List.mem_filter.mpr ⟨hm, by simp [hrecv, hsent]⟩
  have hstep := getMsg_store_map s
    (f := fun x => if x.receiver_id = u ∧ x.status = Status.sent then { x with status := Status.delivered } else x)
    (fun x => by dsimp only; split <;> rfl) m.id hms
  dsimp only at hstep
  rw [if_pos ⟨hrecv, hsent⟩] at hstep
  rw [reconcile]
  rw [if_neg (by
    simp only [List.isEmpty_eq_true]
    exact fun h => by rw [h] at hmund; cases hmund)]
  dsimp only
  exact hstep

/-- Is this emit a `message_status` event? -/
def isStatusEmit (e : Emit) : Bool :=
  match e.payload with
  | Payload.messageStatus _ _ => true
  | _ => false

/-- Is this emit a `message_sent` acknowledgment? -/
def isSentAckEmit (e : Emit) : Bool :=
  match e.payload with
  | Payload.messageSent _ => true
  | _ => false

/-- The message document built by the `send_message` handler before save. -/
def builtMessage (sender : UserId) (d : SendData) (newId : MsgId) (t : Nat) : Message :=
  { id := newId, sender_id := sender, receiver_id := d.receiverId,
    message := d.message, media_url := d.mediaUrl, media_type := d.mediaType,
    media_name := d.mediaName, status := Status.sent, timestamp := t,
    seen_at := none, reply_to := d.replyTo, reactions := [] }

theorem getMsg_append_fresh (s : ServerState) (m : Message)
    (hfresh : getMsg s m.id = none) :
    getMsg { s with store := s.store ++ [m] } m.id = some m := by
  have hn : List.find? (fun x => decide (x.id = m.id)) s.store = none := hfresh
  show (s.store ++ [m]).find? (fun x => decide (x.id = m.id)) = some m
  rw [List.find?_append, hn, Option.none_or]
  rw [List.find?_cons_of_pos _ (by simp)]

theorem sendDeliveredCheck_emits_cases (s : ServerState) (sender receiverId : UserId) (mid : MsgId) :
    (sendDeliveredCheck s sender receiverId mid).2 = [] ∨
    (sendDeliveredCheck s sender receiverId mid).2 =
      [⟨Target.room sender, Payload.messageStatus mid Status.delivered⟩] := by
  rw [sendDeliveredCheck]
  split
  · split
    · split
      · right
        rfl
      · left
        rfl
    · left
      rfl
  · left
    rfl

/-- A concrete message document used in witnesses and counterexamples. -/
def sampleMsg (mid : MsgId) (snd rcv : UserId) (st : Status) (sa : Option Nat) : Message :=
  ⟨mid, snd, rcv, "hi", none, none, none, st, 0, sa, none, []⟩

/-- C1: for every message and every sequence of send_message (persist and
delivered-check halves), connect-reconciliation, message_seen and other
inbound events, the stored status only moves forward in the order
`sent < delivered < seen`; in particular no event ever changes an
already-`seen` message back to `delivered` (the sent→delivered step inside
the send_message handler re-reads the document and only upgrades it while
it is still `sent`). -/
theorem c1_status_monotone_over_traces (s : ServerState) (tr : List Ev) (mid : MsgId)
    (m m' : Message)
    (hm : getMsg s mid = some m)
    (hm' : getMsg (run s tr).1 mid = some m') :
    m.status.rank ≤ m'.status.rank ∧ (m.status = Status.seen → m'.status = Status.seen) := by
  obtain ⟨m2, hm2, h⟩ := run_status_mono tr s mid m hm
  rw [hm'] at hm2
  have hmm : m' = m2 := (Option.some.injEq _ _).mp hm2
  subst hmm
  refine ⟨h, fun hseen => ?_⟩
  rw [hseen] at h
  exact Status.eq_seen_of_two_le_rank h

/-- The relay state used by the C1 witness: user b online, one message
from a to b already seen. -/
def c1State : ServerState :=
  ⟨fun v => if v = "b" then ["s2"] else [], fun _ => 0,
   [sampleMsg "m1" "a" "b" Status.seen (some 2)]⟩

/-- Witness for C1 at a concrete state and trace: a late delivered-check
plus a repeated message_seen leave the message `seen`. -/
theorem c1_status_monotone_over_traces_witness :
    getMsg c1State "m1" = some (sampleMsg "m1" "a" "b" Status.seen (some 2)) ∧
    getMsg (run c1State [Ev.sendDeliveredCheck "a" "b" "m1",
        Ev.messageSeen "b" ⟨"m1", "a"⟩ 3 true]).1 "m1" =
      some (sampleMsg "m1" "a" "b" Status.seen (some 3)) ∧
    ((sampleMsg "m1" "a" "b" Status.seen (some 2)).status.rank ≤
        (sampleMsg "m1" "a" "b" Status.seen (some 3)).status.rank ∧
      ((sampleMsg "m1" "a" "b" Status.seen (some 2)).status = Status.seen →
        (sampleMsg "m1" "a" "b" Status.seen (some 3)).status = Status.seen)) :=
  ⟨by decide, by decide,
   c1_status_monotone_over_traces c1State
     [Ev.sendDeliveredCheck "a" "b" "m1", Ev.messageSeen "b" ⟨"m1", "a"⟩ 3 true]
     "m1" _ _ (by decide) (by decide)⟩

/-- Counterexample to C2 as stated: a second simultaneous connection by an
already-online user still emits a `user_online` broadcast (the connection
handler has no first-connection guard). -/
theorem c2_second_connection_counterexample :
    isOnline ((connect initialState "a" "s1" 0 true).1) "a" = true ∧
    (connect ((connect initialState "a" "s1" 0 true).1) "a" "s2" 1 true).2.countP
      (onlineFor "a") = 1 := by
  decide

/-- C2 (amended): per inbound event, a `user_online(u)` broadcast is
emitted exactly once on every connection event by `u` — whether or not `u`
was already online — and on no other event; a `user_offline(u)` broadcast
is emitted exactly once when an event moves `u` from online to offline
(closing one of several live connections emits nothing), and never
otherwise. -/
theorem c2_presence_transition_counts (s : ServerState) (e : Ev) (u : UserId) :
    ((step s e).2.countP (onlineFor u) =
      match e with
      | Ev.connect v _ _ _ => if v = u then 1 else 0
      | _ => 0)
    ∧ ((step s e).2.countP (offlineFor u) =
      if isOnline s u && !(isOnline (step s e).1 u) then 1 else 0) :=
  presence_step_counts s e u

/-- Counterexample to C3 as stated: when the persistence write fails, the
send_message handler emits nothing at all — in particular the sender
receives no explicit failure acknowledgment (the catch block only logs). -/
theorem c3_failed_send_counterexample :
    send_message initialState "a" "s1" ⟨"b", "hi", none, none, none, none⟩ "m1" 0 false =
      (initialState, []) := rfl

/-- C3 (amended): on a failed persistence write the handler leaves the
state unchanged and emits nothing — no receive_message fan-out, no
message_sent echo, but also no failure acknowledgment (the error is only
logged); on a successful write the submitting socket receives the
message_sent echo exactly once. -/
theorem c3_failed_send_amended (s : ServerState) (sender : UserId) (sid : SockId)
    (d : SendData) (newId : MsgId) (t : Nat) :
    send_message s sender sid d newId t false = (s, []) ∧
    (send_message s sender sid d newId t true).2.countP
      (fun e => isSentAckEmit e && decide (e.target = Target.socket sid)) = 1 := by
  refine ⟨rfl, ?_⟩
  show List.countP _
    ([⟨Target.room d.receiverId, Payload.receiveMessage (builtMessage sender d newId t)⟩,
      ⟨Target.socket sid, Payload.messageSent (builtMessage sender d newId t)⟩] ++
     (sendDeliveredCheck { s with store := s.store ++ [builtMessage sender d newId t] }
        sender d.receiverId newId).2) = 1
  rw [List.countP_append]
  have h1 : List.countP (fun e => isSentAckEmit e && decide (e.target = Target.socket sid))
      [(⟨Target.room d.receiverId, Payload.receiveMessage (builtMessage sender d newId t)⟩ : Emit),
       ⟨Target.socket sid, Payload.messageSent (builtMessage sender d newId t)⟩] = 1 := by
    simp [List.countP_cons, isSentAckEmit]
  have h2 : List.countP (fun e => isSentAckEmit e && decide (e.target = Target.socket sid))
      (sendDeliveredCheck { s with store := s.store ++ [builtMessage sender d newId t] }
        sender d.receiverId newId).2 = 0 := by
    rcases sendDeliveredCheck_emits_cases
        { s with store := s.store ++ [builtMessage sender d newId t] } sender d.receiverId newId
      with h | h <;> rw [h] <;> rfl
  rw [h1, h2]

/-- C4: when user u connects, every stored message addressed to u still in
`sent` status is transitioned to `delivered`, and for each such message
exactly one message_status delivered event carrying that message's id is
emitted to its sender's room. -/
theorem c4_reconnect_reconciliation (s : ServerState) (u : UserId) (sid : SockId) (t : Nat)
    (m : Message)
    (hnd : (s.store.map Message.id).Nodup)
    (hm : m ∈ s.store) (hrecv : m.receiver_id = u) (hsent : m.status = Status.sent) :
    getMsg (connect s u sid t true).1 m.id = some { m with status := Status.delivered } ∧
    (connect s u sid t true).2.countP
      (fun e => decide (e = ⟨Target.room m.sender_id, Payload.messageStatus m.id Status.delivered⟩)) = 1 := by
  have hms : getMsg s m.id = some m := find?_id_of_mem hnd hm
  constructor
  · show getMsg (reconcile _ u).1 m.id = _
    exact getMsg_reconcile_sent _ u m hms hm hrecv hsent
  · show List.countP _ (⟨Target.global, Payload.userOnline u t⟩ :: (reconcile _ u).2) = 1
    rw [List.countP_cons]
    have hz : (decide ((⟨Target.global, Payload.userOnline u t⟩ : Emit) =
        ⟨Target.room m.sender_id, Payload.messageStatus m.id Status.delivered⟩)) = false := by
      rfl
    rw [hz]
    rw [if_neg Bool.false_ne_true, Nat.add_zero]
    exact reconcile_emit_count _ u m hnd hm hrecv hsent

/-- The store used by the C4 witness: two `sent` messages for user u from
two distinct senders. -/
def c4State : ServerState :=
  ⟨fun _ => [], fun _ => 0,
   [sampleMsg "m1" "a" "u" Status.sent none, sampleMsg "m2" "c" "u" Status.sent none]⟩

/-- Witness for C4 at a concrete store. -/
theorem c4_reconnect_reconciliation_witness :
    (c4State.store.map Message.id).Nodup ∧
    sampleMsg "m1" "a" "u" Status.sent none ∈ c4State.store ∧
    (getMsg (connect c4State "u" "s9" 7 true).1 "m1" =
        some { sampleMsg "m1" "a" "u" Status.sent none with status := Status.delivered } ∧
      (connect c4State "u" "s9" 7 true).2.countP
        (fun e => decide (e = ⟨Target.room "a", Payload.messageStatus "m1" Status.delivered⟩)) = 1) :=
  ⟨by decide, by decide,
   c4_reconnect_reconciliation c4State "u" "s9" 7 (sampleMsg "m1" "a" "u" Status.sent none)
     (by decide) (by decide) rfl rfl⟩

/-- The store used by the C5 counterexample and witness: one message
already `seen` at time 5. -/
def c5State : ServerState :=
  ⟨fun _ => [], fun _ => 0, [sampleMsg "m1" "a" "b" Status.seen (some 5)]⟩

/-- Counterexample to C5 as stated: a message_seen event for an
already-`seen` message emits a further message_status broadcast and
overwrites the stored seen_at timestamp (5 becomes 6) — the handler has
no already-seen guard. -/
theorem c5_repeat_seen_counterexample :
    (sampleMsg "m1" "a" "b" Status.seen (some 5)).status = Status.seen ∧
    (message_seen c5State ⟨"m1", "a"⟩ 6 true).2.countP isStatusEmit = 1 ∧
    (getMsg (message_seen c5State ⟨"m1", "a"⟩ 6 true).1 "m1").map Message.seen_at =
      some (some 6) := by
  decide

/-- C5 (amended): a message_seen event for a message whose status is
already `seen` re-emits exactly one message_status seen broadcast to the
payload's senderId room and overwrites seen_at with the current time; the
status itself stays `seen`. -/
theorem c5_repeat_seen_amended (s : ServerState) (d : SeenData) (t : Nat) (m : Message)
    (hm : getMsg s d.messageId = some m) (_hseen : m.status = Status.seen) :
    (message_seen s d t true).2 =
      [⟨Target.room d.senderId, Payload.messageStatus d.messageId Status.seen⟩] ∧
    getMsg (message_seen s d t true).1 d.messageId =
      some { m with status := Status.seen, seen_at := some t } := by
  refine ⟨rfl, ?_⟩
  have h := getMsg_store_map s
    (f := fun x => if x.id = d.messageId then { x with status := Status.seen, seen_at := some t } else x)
    (fun x => by dsimp only; split <;> rfl) d.messageId hm
  dsimp only at h
  rw [if_pos (getMsg_id hm)] at h
  exact h

/-- Witness for C5 (amended) at the concrete already-seen store. -/
theorem c5_repeat_seen_amended_witness :
    getMsg c5State "m1" = some (sampleMsg "m1" "a" "b" Status.seen (some 5)) ∧
    (sampleMsg "m1" "a" "b" Status.seen (some 5)).status = Status.seen ∧
    ((message_seen c5State ⟨"m1", "a"⟩ 6 true).2 =
        [⟨Target.room "a", Payload.messageStatus "m1" Status.seen⟩] ∧
      getMsg (message_seen c5State ⟨"m1", "a"⟩ 6 true).1 "m1" =
        some { sampleMsg "m1" "a" "b" Status.seen (some 5) with
                status := Status.seen, seen_at := some 6 }) :=
  ⟨by decide, rfl,
   c5_repeat_seen_amended c5State ⟨"m1", "a"⟩ 6 (sampleMsg "m1" "a" "b" Status.seen (some 5))
     (by decide) rfl⟩

/-- C6: for a successfully persisted send_message with a fresh id, the
stored status is upgraded to `delivered` (with exactly one message_status
delivered broadcast to the sender's room) precisely when the receiver has
a live connection at the moment of send; when the receiver is offline the
status stays `sent` and no message_status event is emitted at all. -/
theorem c6_delivered_iff_receiver_online (s : ServerState) (sender : UserId) (sid : SockId)
    (d : SendData) (newId : MsgId) (t : Nat)
    (hfresh : getMsg s newId = none) :
    ((isOnline s d.receiverId = true →
        (getMsg (send_message s sender sid d newId t true).1 newId).map Message.status =
          some Status.delivered ∧
        (send_message s sender sid d newId t true).2.countP
          (fun e => decide (e = ⟨Target.room sender, Payload.messageStatus newId Status.delivered⟩)) = 1)
     ∧ (isOnline s d.receiverId = false →
        (getMsg (send_message s sender sid d newId t true).1 newId).map Message.status =
          some Status.sent ∧
        (send_message s sender sid d newId t true).2.countP isStatusEmit = 0)) := by
  have hmid : (builtMessage sender d newId t).id = newId := rfl
  have hget1 : getMsg { s with store := s.store ++ [builtMessage sender d newId t] } newId =
      some (builtMessage sender d newId t) := by
    have hh := getMsg_append_fresh s (builtMessage sender d newId t) (hmid ▸ hfresh)
    rw [hmid] at hh
    exact hh
  constructor
  · intro hon
    show Option.map Message.status
        (getMsg (sendDeliveredCheck { s with store := s.store ++ [builtMessage sender d newId t] }
          sender d.receiverId newId).1 newId) = some Status.delivered ∧
      List.countP _
        ([⟨Target.room d.receiverId, Payload.receiveMessage (builtMessage sender d newId t)⟩,
          ⟨Target.socket sid, Payload.messageSent (builtMessage sender d newId t)⟩] ++
         (sendDeliveredCheck { s with store := s.store ++ [builtMessage sender d newId t] }
            sender d.receiverId newId).2) = 1
    rw [sendDeliveredCheck]
    rw [if_pos (show isOnline { s with store := s.store ++ [builtMessage sender d newId t] }
        d.receiverId = true from hon)]
    rw [hget1]
    dsimp only
    rw [if_pos (show (builtMessage sender d newId t).status = Status.sent from rfl)]
    constructor
    · have hup := getMsg_store_map { s with store := s.store ++ [builtMessage sender d newId t] }
        (f := fun x => if x.id = newId then { x with status := Status.delivered } else x)
        (fun x => by dsimp only; split <;> rfl) newId hget1
      dsimp only at hup
      rw [if_pos hmid] at hup
      dsimp only
      rw [hup]
      rfl
    · dsimp only
      rw [List.countP_append]
      have h1 : List.countP
          (fun e => decide (e = ⟨Target.room sender, Payload.messageStatus newId Status.delivered⟩))
          [(⟨Target.room d.receiverId, Payload.receiveMessage (builtMessage sender d newId t)⟩ : Emit),
           ⟨Target.socket sid, Payload.messageSent (builtMessage sender d newId t)⟩] = 0 := by
        simp [List.countP_cons]
      rw [h1]
      have h2 : List.countP
          (fun e => decide (e = ⟨Target.room sender, Payload.messageStatus newId Status.delivered⟩))
          [(⟨Target.room sender, Payload.messageStatus newId Status.delivered⟩ : Emit)] = 1 := by
        rw [List.countP_cons]
        simp
      rw [h2]
  · intro hoff
    show Option.map Message.status
        (getMsg (sendDeliveredCheck { s with store := s.store ++ [builtMessage sender d newId t] }
          sender d.receiverId newId).1 newId) = some Status.sent ∧
      List.countP isStatusEmit
        ([⟨Target.room d.receiverId, Payload.receiveMessage (builtMessage sender d newId t)⟩,
          ⟨Target.socket sid, Payload.messageSent (builtMessage sender d newId t)⟩] ++
         (sendDeliveredCheck { s with store := s.store ++ [builtMessage sender d newId t] }
            sender d.receiverId newId).2) = 0
    rw [sendDeliveredCheck]
    rw [if_neg (show ¬ isOnline { s with store := s.store ++ [builtMessage sender d newId t] }
        d.receiverId = true by
      rw [show isOnline { s with store := s.store ++ [builtMessage sender d newId t] }
          d.receiverId = isOnline s d.receiverId from rfl, hoff]
      exact Bool.false_ne_true)]
    constructor
    · dsimp only
      rw [hget1]
      rfl
    · rfl

/-- The state used by the C6 witness: user b online with one tab, empty
store. -/
def c6State : ServerState :=
  ⟨fun v => if v = "b" then ["s2"] else [], fun _ => 0, []⟩

/-- Witness for C6 at a concrete state with the receiver online. -/
theorem c6_delivered_iff_receiver_online_witness :
    getMsg c6State "m1" = none ∧
    isOnline c6State "b" = true ∧
    ((getMsg (send_message c6State "a" "s1" ⟨"b", "hi", none, none, none, none⟩ "m1" 4 true).1 "m1").map
        Message.status = some Status.delivered ∧
      (send_message c6State "a" "s1" ⟨"b", "hi", none, none, none, none⟩ "m1" 4 true).2.countP
        (fun e => decide (e = ⟨Target.room "a", Payload.messageStatus "m1" Status.delivered⟩)) = 1) :=
  ⟨rfl, by decide,
   (c6_delivered_iff_receiver_online c6State "a" "s1" ⟨"b", "hi", none, none, none, none⟩
     "m1" 4 rfl).1 (by decide)⟩

/-- The state used by the C7 counterexample: sender a has two live
connections (two tabs). -/
def c7State : ServerState :=
  ⟨fun v => if v = "a" then ["s1", "s2"] else [], fun _ => 0, []⟩

/-- Counterexample to C7 as stated: the sender's second live connection
receives no message_sent echo — the acknowledgment is a `socket.emit` to
the submitting socket only, not a broadcast to the sender's room. -/
theorem c7_ack_scope_counterexample :
    "s2" ∈ c7State.conns "a" ∧
    (send_message c7State "a" "s1" ⟨"b", "hi", none, none, none, none⟩ "m1" 5 true).2.countP
      (fun e => isSentAckEmit e &&
        receivesEmit (send_message c7State "a" "s1" ⟨"b", "hi", none, none, none, none⟩ "m1" 5 true).1
          e "s2") = 0 := by
  decide

/-- C7 (amended): the message_sent acknowledgment is emitted exactly once,
addressed only to the specific connection that submitted the request
(`socket.emit`), and to no other target — not to the sender's other
tabs. -/
theorem c7_ack_scope_amended (s : ServerState) (sender : UserId) (sid : SockId)
    (d : SendData) (newId : MsgId) (t : Nat) (saveOk : Bool) :
    (send_message s sender sid d newId t saveOk).2.countP
      (fun e => isSentAckEmit e && decide (e.target = Target.socket sid)) =
      (if saveOk then 1 else 0) ∧
    (send_message s sender sid d newId t saveOk).2.countP
      (fun e => isSentAckEmit e && !(decide (e.target = Target.socket sid))) = 0 := by
  cases saveOk with
  | false => exact ⟨rfl, rfl⟩
  | true =>
    constructor
    · show List.countP _
        ([⟨Target.room d.receiverId, Payload.receiveMessage (builtMessage sender d newId t)⟩,
          ⟨Target.socket sid, Payload.messageSent (builtMessage sender d newId t)⟩] ++
         (sendDeliveredCheck { s with store := s.store ++ [builtMessage sender d newId t] }
            sender d.receiverId newId).2) = if true then 1 else 0
      rw [List.countP_append]
      have h1 : List.countP (fun e => isSentAckEmit e && decide (e.target = Target.socket sid))
          [(⟨Target.room d.receiverId, Payload.receiveMessage (builtMessage sender d newId t)⟩ : Emit),
           ⟨Target.socket sid, Payload.messageSent (builtMessage sender d newId t)⟩] = 1 := by
        simp [List.countP_cons, isSentAckEmit]
      have h2 : List.countP (fun e => isSentAckEmit e && decide (e.target = Target.socket sid))
          (sendDeliveredCheck { s with store := s.store ++ [builtMessage sender d newId t] }
            sender d.receiverId newId).2 = 0 := by
        rcases sendDeliveredCheck_emits_cases
            { s with store := s.store ++ [builtMessage sender d newId t] } sender d.receiverId newId
          with h | h <;> rw [h] <;> rfl
      rw [h1, h2]
      rfl
    · show List.countP _
        ([⟨Target.room d.receiverId, Payload.receiveMessage (builtMessage sender d newId t)⟩,
          ⟨Target.socket sid, Payload.messageSent (builtMessage sender d newId t)⟩] ++
         (sendDeliveredCheck { s with store := s.store ++ [builtMessage sender d newId t] }
            sender d.receiverId newId).2) = 0
      rw [List.countP_append]
      have h1 : List.countP (fun e => isSentAckEmit e && !(decide (e.target = Target.socket sid)))
          [(⟨Target.room d.receiverId, Payload.receiveMessage (builtMessage sender d newId t)⟩ : Emit),
           ⟨Target.socket sid, Payload.messageSent (builtMessage sender d newId t)⟩] = 0 := by
        simp [List.countP_cons, isSentAckEmit]
      have h2 : List.countP (fun e => isSentAckEmit e && !(decide (e.target = Target.socket sid)))
          (sendDeliveredCheck { s with store := s.store ++ [builtMessage sender d newId t] }
            sender d.receiverId newId).2 = 0 := by
        rcases sendDeliveredCheck_emits_cases
            { s with store := s.store ++ [builtMessage sender d newId t] } sender d.receiverId newId
          with h | h <;> rw [h] <;> rfl
      rw [h1, h2]

/-- The store used by the C8 counterexample and witness: a reacts +1 first,
then b reacts with a heart. -/
def c8State : ServerState :=
  ⟨fun _ => [], fun _ => 0,
   [{ sampleMsg "m1" "a" "b" Status.sent none with
        reactions := [⟨"+1", "a"⟩, ⟨"<3", "b"⟩] }]⟩

/-- Counterexample to C8 as stated: toggling the same (user, emoji) twice
does not return the reaction list to its original state — the re-added
reaction lands at the end of the array, so the list order changes. -/
theorem c8_double_toggle_counterexample :
    (getMsg c8State "m1").map Message.reactions = some [⟨"+1", "a"⟩, ⟨"<3", "b"⟩] ∧
    (getMsg (react_message (react_message c8State "a" ⟨"m1", "+1"⟩ true).1
        "a" ⟨"m1", "+1"⟩ true).1 "m1").map Message.reactions =
      some [⟨"<3", "b"⟩, ⟨"+1", "a"⟩] ∧
    some [(⟨"<3", "b"⟩ : Reaction), ⟨"+1", "a"⟩] ≠
      some [(⟨"+1", "a"⟩ : Reaction), ⟨"<3", "b"⟩] := by
  decide

/-- C8 (amended): provided the (user, emoji) pair occurs at most once in
the reaction list — which the toggle itself maintains — applying
react_message twice with the same pair restores the stored reaction list
up to permutation (the same multiset of (emoji, user) pairs, possibly
reordered). -/
theorem c8_double_toggle_amended (s : ServerState) (u : UserId) (d : ReactData) (m : Message)
    (hm : getMsg s d.messageId = some m)
    (hcnt : m.reactions.countP (fun r => decide (r.user_id = u ∧ r.emoji = d.emoji)) ≤ 1) :
    ∃ m', getMsg (react_message (react_message s u d true).1 u d true).1 d.messageId = some m' ∧
      m'.reactions.Perm m.reactions := by
  have hg1 : getMsg (react_message s u d true).1 d.messageId =
      some { m with reactions := toggleReaction u d.emoji m.reactions } := by
    rw [react_message_some hm]
    have h := getMsg_store_map s
      (f := fun x => if x.id = d.messageId then { x with reactions := toggleReaction u d.emoji m.reactions } else x)
      (fun x => by dsimp only; split <;> rfl) d.messageId hm
    dsimp only at h
    rw [if_pos (getMsg_id hm)] at h
    exact h
  refine ⟨{ m with reactions := toggleReaction u d.emoji (toggleReaction u d.emoji m.reactions) },
    ?_, ?_⟩
  · rw [react_message_some hg1]
    have h := getMsg_store_map (react_message s u d true).1
      (f := fun x => if x.id = d.messageId
        then { x with reactions := toggleReaction u d.emoji (toggleReaction u d.emoji m.reactions) }
        else x)
      (fun x => by dsimp only; split <;> rfl) d.messageId hg1
    dsimp only at h
    have hid : m.id = d.messageId := getMsg_id hm
    rw [if_pos (show ({ m with reactions := toggleReaction u d.emoji m.reactions } : Message).id =
        d.messageId from hid)] at h
    exact h
  · show (toggleReaction u d.emoji (toggleReaction u d.emoji m.reactions)).Perm m.reactions
    exact toggle_toggle_perm u d.emoji m.reactions hcnt

/-- Witness for C8 (amended) at the concrete two-reaction store. -/
theorem c8_double_toggle_amended_witness :
    getMsg c8State "m1" =
      some { sampleMsg "m1" "a" "b" Status.sent none with
              reactions := [⟨"+1", "a"⟩, ⟨"<3", "b"⟩] } ∧
    ({ sampleMsg "m1" "a" "b" Status.sent none with
        reactions := [(⟨"+1", "a"⟩ : Reaction), ⟨"<3", "b"⟩] } : Message).reactions.countP
      (fun r => decide (r.user_id = "a" ∧ r.emoji = "+1")) ≤ 1 ∧
    (∃ m', getMsg (react_message (react_message c8State "a" ⟨"m1", "+1"⟩ true).1
        "a" ⟨"m1", "+1"⟩ true).1 "m1" = some m' ∧
      m'.reactions.Perm ({ sampleMsg "m1" "a" "b" Status.sent none with
        reactions := [(⟨"+1", "a"⟩ : Reaction), ⟨"<3", "b"⟩] } : Message).reactions) :=
  ⟨by decide, by decide,
   c8_double_toggle_amended c8State "a" ⟨"m1", "+1"⟩ _ (by decide) (by decide)⟩

/-- Counterexample to C9 as stated: a message_seen event naming an id
absent from the store still emits a message_status broadcast to the
payload's senderId room (the handler broadcasts unconditionally after the
silent no-op update). -/
theorem c9_unknown_id_counterexample :
    getMsg initialState "zz" = none ∧
    (message_seen initialState ⟨"zz", "a"⟩ 0 true).2 =
      [⟨Target.room "a", Payload.messageStatus "zz" Status.seen⟩] := by
  decide

/-- C9 (amended): react_message on an unknown message id is a complete
no-op (state unchanged, nothing emitted); message_seen on an unknown id
leaves the store unchanged but still emits exactly one message_status
seen event to the payload's senderId room. -/
theorem c9_unknown_id_amended (s s2 : ServerState) (u : UserId) (rd : ReactData)
    (sd : SeenData) (t : Nat)
    (hr : getMsg s rd.messageId = none) (hs : getMsg s2 sd.messageId = none) :
    react_message s u rd true = (s, []) ∧
    (message_seen s2 sd t true).1.store = s2.store ∧
    (message_seen s2 sd t true).2 =
      [⟨Target.room sd.senderId, Payload.messageStatus sd.messageId Status.seen⟩] := by
  refine ⟨react_message_none hr, ?_, rfl⟩
  show s2.store.map _ = s2.store
  have hall : ∀ x ∈ s2.store, ¬ (x.id = sd.messageId) := by
    intro x hx
    have hpx := List.find?_eq_none.mp hs x hx
    simpa using hpx
  have hmap : ∀ x ∈ s2.store,
      (if x.id = sd.messageId then { x with status := Status.seen, seen_at := some t } else x) = x :=
    fun x hx => if_neg (hall x hx)
  rw [List.map_congr_left hmap, List.map_id']

/-- Witness for C9 (amended) on the empty store. -/
theorem c9_unknown_id_amended_witness :
    getMsg initialState "zz" = none ∧
    (react_message initialState "a" ⟨"zz", "+1"⟩ true = (initialState, []) ∧
     (message_seen initialState ⟨"zz", "b"⟩ 0 true).1.store = initialState.store ∧
     (message_seen initialState ⟨"zz", "b"⟩ 0 true).2 =
       [⟨Target.room "b", Payload.messageStatus "zz" Status.seen⟩]) :=
  ⟨rfl, c9_unknown_id_amended initialState initialState "a" ⟨"zz", "+1"⟩ ⟨"zz", "b"⟩ 0 rfl rfl⟩

/-- C10: the message_status seen broadcast of the message_seen handler is
routed to the room named by the client-supplied senderId payload field,
not to the stored message's sender: when they differ, a connection of the
true sender receives nothing while every connection of the named senderId
receives exactly one status event. -/
theorem c10_seen_routing (s : ServerState) (d : SeenData) (t : Nat) (m : Message)
    (sidTrue sidNamed : SockId)
    (_hm : getMsg s d.messageId = some m)
    (_hne : m.sender_id ≠ d.senderId)
    (_hTrue : sidTrue ∈ s.conns m.sender_id)
    (hTrueNot : sidTrue ∉ s.conns d.senderId)
    (hNamed : sidNamed ∈ s.conns d.senderId) :
    (message_seen s d t true).2 =
      [⟨Target.room d.senderId, Payload.messageStatus d.messageId Status.seen⟩] ∧
    (message_seen s d t true).2.countP
      (fun e => receivesEmit (message_seen s d t true).1 e sidTrue) = 0 ∧
    (message_seen s d t true).2.countP
      (fun e => receivesEmit (message_seen s d t true).1 e sidNamed && isStatusEmit e) = 1 := by
  have hconns : (message_seen s d t true).1.conns = s.conns := message_seen_conns s d t true
  refine ⟨rfl, ?_, ?_⟩
  · show List.countP _
      [(⟨Target.room d.senderId, Payload.messageStatus d.messageId Status.seen⟩ : Emit)] = 0
    rw [List.countP_cons, List.countP_nil]
    have hrec : receivesEmit (message_seen s d t true).1
        ⟨Target.room d.senderId, Payload.messageStatus d.messageId Status.seen⟩ sidTrue = false := by
      show decide (sidTrue ∈ (message_seen s d t true).1.conns d.senderId) = false
      rw [hconns]
      exact decide_eq_false hTrueNot
    rw [hrec]
    rfl
  · show List.countP _
      [(⟨Target.room d.senderId, Payload.messageStatus d.messageId Status.seen⟩ : Emit)] = 1
    rw [List.countP_cons, List.countP_nil]
    have hrec : receivesEmit (message_seen s d t true).1
        ⟨Target.room d.senderId, Payload.messageStatus d.messageId Status.seen⟩ sidNamed = true := by
      show decide (sidNamed ∈ (message_seen s d t true).1.conns d.senderId) = true
      rw [hconns]
      exact decide_eq_true hNamed
    rw [hrec]
    rfl

/-- The state used by the C10 witness: the true sender a is connected as
s1, the (different) user named in the payload, b, is connected as s2. -/
def c10State : ServerState :=
  ⟨fun v => if v = "a" then ["s1"] else if v = "b" then ["s2"] else [], fun _ => 0,
   [sampleMsg "m1" "a" "c" Status.delivered none]⟩

/-- Witness for C10: the payload names b as the sender although the stored
message was sent by a. -/
theorem c10_seen_routing_witness :
    getMsg c10State "m1" = some (sampleMsg "m1" "a" "c" Status.delivered none) ∧
    (sampleMsg "m1" "a" "c" Status.delivered none).sender_id ≠ "b" ∧
    ((message_seen c10State ⟨"m1", "b"⟩ 9 true).2 =
        [⟨Target.room "b", Payload.messageStatus "m1" Status.seen⟩] ∧
      (message_seen c10State ⟨"m1", "b"⟩ 9 true).2.countP
        (fun e => receivesEmit (message_seen c10State ⟨"m1", "b"⟩ 9 true).1 e "s1") = 0 ∧
      (message_seen c10State ⟨"m1", "b"⟩ 9 true).2.countP
        (fun e => receivesEmit (message_seen c10State ⟨"m1", "b"⟩ 9 true).1 e "s2" &&
          isStatusEmit e) = 1) :=
  ⟨by decide, by decide,
   c10_seen_routing c10State ⟨"m1", "b"⟩ 9 (sampleMsg "m1" "a" "c" Status.delivered none)
     "s1" "s2" (by decide) (by decide) (by decide) (by decide) (by decide)⟩

end CrispChat
